import Mathlib

/-!
Verification of the css-talk extension (src/src/extension.ts).

The source registers three editor commands:
  - css-talk.toggleRegisterMode: flips a module-level boolean and shows it;
  - css-talk.registerLine: extracts CSS variable declarations and class-name
    tokens from the active line with two regexes and merges them into the
    JSON dictionary file (read, modify, rewrite in full);
  - css-talk.transformToCSS: posts the active line to a completion service
    and replaces the line's full range with the trimmed first-candidate
    content.

Strings are embedded as lists of Unicode code points.  The two regexes,
JS string split, trim, truthiness, JS-object property assignment, and the
optional-chain shape check on the service response are each translated
directly from the source's semantics.
-/

namespace CssTalk

/-- Strings, as lists of Unicode code points. -/
abbrev Str := List Char

/-- ASCII word character, the JS regex class w. -/
def isWordChar (c : Char) : Bool :=
  ('a' ≤ c && c ≤ 'z') || ('A' ≤ c && c ≤ 'Z') || ('0' ≤ c && c ≤ '9') || c = '_'

/-- The character class of word characters and hyphen used by both source
regexes. -/
def isWordDash (c : Char) : Bool := isWordChar c || c = '-'

/-- JS whitespace: the regex class s, which is also the character set removed
by String.prototype.trim (ECMAScript WhiteSpace plus LineTerminator). -/
def isJsWs (c : Char) : Bool :=
  c = '\t' || c = '\n' || c = '\x0b' || c = '\x0c' || c = '\r' || c = ' ' ||
  c.val = 0xa0 || c.val = 0x1680 || (0x2000 ≤ c.val && c.val ≤ 0x200a) ||
  c.val = 0x2028 || c.val = 0x2029 || c.val = 0x202f || c.val = 0x205f ||
  c.val = 0x3000 || c.val = 0xfeff

/-- JS String.prototype.trim: strip whitespace from both ends. -/
def jsTrim (s : Str) : Str :=
  ((s.dropWhile isJsWs).reverse.dropWhile isJsWs).reverse

/-- Attempt a match of the variable regex (two hyphens, one or more
word-or-hyphen characters, optional whitespace, a colon, optional whitespace,
one or more non-semicolon characters) at the start of the string.  Returns
the matched text and the remainder after the match.  The greedy runs with
backtracking reduce to maximal runs because the class of word-or-hyphen
characters, the whitespace class and the literal colon are pairwise
disjoint, and the whitespace-then-non-semicolon tail consumes exactly the
maximal run of non-semicolon characters whenever that run is nonempty. -/
def tryVarAt : Str → Option (Str × Str)
  | '-' :: '-' :: s =>
    let name := s.takeWhile isWordDash
    if name.isEmpty then none
    else
      match (s.dropWhile isWordDash).dropWhile isJsWs with
      | ':' :: r3 =>
        let v := r3.takeWhile (fun c => c != ';')
        if v.isEmpty then none
        else
          some ('-' :: '-' :: (name ++ (s.dropWhile isWordDash).takeWhile isJsWs
                  ++ ':' :: v),
                r3.dropWhile (fun c => c != ';'))
      | _ => none
  | _ => none

/-- Left-to-right global scan: attempt a match at each position, advance one
character on failure, resume after the matched text on success.  Every step
consumes at least one character, so fuel equal to the string's length always
suffices. -/
def matchVarsAux : Nat → Str → List Str
  | 0, _ => []
  | _, [] => []
  | fuel + 1, c :: cs =>
    match tryVarAt (c :: cs) with
    | some (m, rest) => m :: matchVarsAux fuel rest
    | none => matchVarsAux fuel cs

/-- The source's matchVars: all global matches of the variable regex on the
line (the empty list stands for a null match result). -/
def matchVars (line : Str) : List Str := matchVarsAux line.length line

/-- Attempt a match of the class regex (a period followed by one or more
word-or-hyphen characters) at the start of the string. -/
def tryClassAt : Str → Option (Str × Str)
  | '.' :: s =>
    let name := s.takeWhile isWordDash
    if name.isEmpty then none
    else some ('.' :: name, s.dropWhile isWordDash)
  | _ => none

/-- Left-to-right global scan for the class regex. -/
def matchClassesAux : Nat → Str → List Str
  | 0, _ => []
  | _, [] => []
  | fuel + 1, c :: cs =>
    match tryClassAt (c :: cs) with
    | some (m, rest) => m :: matchClassesAux fuel rest
    | none => matchClassesAux fuel cs

/-- The source's matchClasses: all global matches of the class regex. -/
def matchClasses (line : Str) : List Str := matchClassesAux line.length line

/-- The dictionary record persisted in user-dictionary.json: variables is a
JS object, i.e. an insertion-ordered association list with unique keys and
last-write-wins assignment; classes is an array. -/
structure Dict where
  vars : List (Str × Str)
  classes : List Str
deriving DecidableEq

/-- The empty record used when the file is absent or unreadable. -/
def Dict.empty : Dict := ⟨[], []⟩

/-- JS object property read on the variables object. -/
def getVar : List (Str × Str) → Str → Option Str
  | [], _ => none
  | (k0, v0) :: rest, k => if k0 = k then some v0 else getVar rest k

/-- JS object property write: overwrite in place when the key exists,
append otherwise. -/
def setVar : List (Str × Str) → Str → Str → List (Str × Str)
  | [], k, v => [(k, v)]
  | (k0, v0) :: rest, k, v =>
    if k0 = k then (k0, v) :: rest else (k0, v0) :: setVar rest k v

/-- User-visible messages shown by the three command handlers. -/
inductive Msg
  | varReg (key : Str)
  | clsReg (name : Str)
  | toggled (newMode : Bool)
  | errKey
  | errApi
deriving DecidableEq

/-- JS String.prototype.split with a colon separator. -/
def splitColon : Str → List Str
  | [] => [[]]
  | ':' :: cs => [] :: splitColon cs
  | c :: cs =>
    match splitColon cs with
    | [] => [[c]]
    | h :: t => (c :: h) :: t

/-- Head of the variable loop body: split the match on colons, trim each
segment, destructure the first two segments into key and value, and apply
the source's truthiness test (a key or value that trims to the empty string
is falsy, and a match with fewer than two segments leaves value undefined,
also falsy: the pair is skipped). -/
def pairOf (m : Str) : Option (Str × Str) :=
  match splitColon m with
  | k0 :: v0 :: _ =>
    let k := jsTrim k0
    let v := jsTrim v0
    if k.isEmpty || v.isEmpty then none else some (k, v)
  | _ => none

/-- Body of the loop over matchVars: store the pair and show the variable
notification (the source notifies unconditionally inside the truthiness
test, so overwrites notify too). -/
def procVar (acc : Dict × List Msg) (m : Str) : Dict × List Msg :=
  match pairOf m with
  | some (k, v) =>
    ({ acc.1 with vars := setVar acc.1.vars k v }, acc.2 ++ [Msg.varReg k])
  | none => acc

/-- Body of the loop over matchClasses: append and notify only when the
token is not yet included. -/
def procClass (acc : Dict × List Msg) (m : Str) : Dict × List Msg :=
  if m ∈ acc.1.classes then acc
  else ({ acc.1 with classes := acc.1.classes ++ [m] }, acc.2 ++ [Msg.clsReg m])

/-- The registerLine merge on an already-read record: the variable loop
followed by the class loop, collecting the shown notifications. -/
def registerMerge (d : Dict) (line : Str) : Dict × List Msg :=
  (matchClasses line).foldl procClass ((matchVars line).foldl procVar (d, []))

/-- The variable pairs of a line that pass the truthiness test, in match
order. -/
def validPairs (line : Str) : List (Str × Str) :=
  (matchVars line).filterMap pairOf

/-- Value of the last pair carrying the given key, if any. -/
def lastPair (k : Str) : List (Str × Str) → Option Str
  | [] => none
  | (k0, v0) :: rest =>
    match lastPair k rest with
    | some v => some v
    | none => if k0 = k then some v0 else none

/-- The class tokens not yet known, in first-occurrence order and without
repeats (relative to the already known classes). -/
def firstOccNew (cls : List Str) : List Str → List Str
  | [] => []
  | t :: ts =>
    if t ∈ cls then firstOccNew cls ts else t :: firstOccNew (cls ++ [t]) ts

/-- The variables object after the variable loop alone. -/
def mergeV (vars : List (Str × Str)) (ms : List Str) : List (Str × Str) :=
  ms.foldl
    (fun vs m => match pairOf m with | some (k, v) => setVar vs k v | none => vs)
    vars

/-- Outcome of reading the dictionary file inside the handler's try block:
the file is absent; its text parses into a proper two-field record; reading
or JSON.parse throws, which the catch logs, leaving the empty record in
place; or JSON.parse succeeds with the value null (file text null), which
the handler then uses as its data. -/
inductive ReadResult
  | noFile
  | parsed (d : Dict)
  | parseError
  | parsedNull

/-- The JS value serialized back into the dictionary file. -/
inductive FileVal
  | record (d : Dict)
  | nullVal
deriving DecidableEq

/-- One registerLine invocation after the file read.  Except.error models an
uncaught TypeError: with data null, evaluating data.variables (reached at
the first pair passing the truthiness test) or data.classes.includes
(reached at the first class match) throws, aborting the invocation before
the file write and discarding any messages queued so far. -/
def runRegister : ReadResult → Str → Except Unit (FileVal × List Msg)
  | .noFile, line =>
    .ok (.record (registerMerge Dict.empty line).1, (registerMerge Dict.empty line).2)
  | .parsed d, line =>
    .ok (.record (registerMerge d line).1, (registerMerge d line).2)
  | .parseError, line =>
    .ok (.record (registerMerge Dict.empty line).1, (registerMerge Dict.empty line).2)
  | .parsedNull, line =>
    if (validPairs line).isEmpty then
      if (matchClasses line).isEmpty then .ok (.nullVal, [])
      else .error ()
    else .error ()

/-- The registerLine command.  The first argument is the module-level
registerMode flag, which is in scope for the handler but never read by it;
without an active editor the handler returns before reading or writing
anything (none). -/
def registerLineCmd (_mode : Bool) (editorLine : Option Str) (r : ReadResult) :
    Option (Except Unit (FileVal × List Msg)) :=
  match editorLine with
  | none => none
  | some line => some (runRegister r line)

/-- The toggleRegisterMode command: flip the flag and show its new state. -/
def toggleRegisterMode (mode : Bool) : Bool × List Msg :=
  (!mode, [Msg.toggled (!mode)])

/-- JSON values, for the parsed service response. -/
inductive JVal
  | jnull
  | jbool (b : Bool)
  | jnum (n : Int)
  | jstr (s : Str)
  | jarr (elems : List JVal)
  | jobj (fields : List (Str × JVal))

/-- Property lookup in an object's field list. -/
def jLookup (k : Str) : List (Str × JVal) → Option JVal
  | [] => none
  | (k0, v) :: rest => if k0 = k then some v else jLookup k rest

/-- JS property access on a value: undefined (none) on non-objects and on
absent keys. -/
def jProp (v : JVal) (k : Str) : Option JVal :=
  match v with
  | .jobj fs => jLookup k fs
  | _ => none

/-- JS indexing with 0 as used on data.choices: the first element of an
array, the first character of a string; on a plain object the numeric index
is coerced to the string key zero and that property is looked up; undefined
otherwise (the base is only indexed after it tested truthy, so it is never
null or undefined here). -/
def jIndex0 : JVal → Option JVal
  | .jarr (x :: _) => some x
  | .jstr (c :: _) => some (.jstr [c])
  | .jobj fs => jLookup ['0'] fs
  | _ => none

/-- JS truthiness of a value. -/
def jTruthy : JVal → Bool
  | .jnull => false
  | .jbool b => b
  | .jnum n => n != 0
  | .jstr s => !s.isEmpty
  | .jarr _ => true
  | .jobj _ => true

/-- Truthiness of a possibly-undefined value. -/
def optTruthy : Option JVal → Bool
  | none => false
  | some v => jTruthy v

/-- JS optional chaining: undefined when the base is undefined or null,
ordinary property access otherwise. -/
def optChain (a : Option JVal) (k : Str) : Option JVal :=
  match a with
  | none => none
  | some .jnull => none
  | some v => jProp v k

/-- The field name choices. -/
def choicesKey : Str := ['c', 'h', 'o', 'i', 'c', 'e', 's']

/-- The field name message. -/
def messageKey : Str := ['m', 'e', 's', 's', 'a', 'g', 'e']

/-- The field name content. -/
def contentKey : Str := ['c', 'o', 'n', 't', 'e', 'n', 't']

/-- The access path data.choices followed by index 0, then optional chains
through message and content.  The source only evaluates it once data and
data.choices are known truthy, so the plain accesses cannot throw. -/
def contentChain (data : JVal) : Option JVal :=
  match jProp data choicesKey with
  | some c => optChain (optChain (jIndex0 c) messageKey) contentKey
  | none => none

/-- The source's response shape test: not data, or not data.choices, or no
truthy first-candidate content. -/
def shapeFail (data : JVal) : Bool :=
  !(jTruthy data) || !(optTruthy (jProp data choicesKey)) ||
    !(optTruthy (contentChain data))

/-- Truthiness of the configured api key: an absent or empty string is
falsy. -/
def keyTruthy : Option Str → Bool
  | none => false
  | some s => !s.isEmpty

/-- The document as one transform invocation sees it: the text before the
active line, the active line's text (the range handed to replace), and the
text after it. -/
structure Doc where
  pre : Str
  cur : Str
  post : Str
deriving DecidableEq

/-- editBuilder.replace of the line's full range with the given text. -/
def replaceCur (d : Doc) (t : Str) : Doc := { d with cur := t }

/-- Result of awaiting fetch and then response.json: reject covers a network
failure or a non-JSON body (either await throws, and the handler has no
try around them); resolve carries the parsed JSON value. -/
inductive FetchOutcome
  | reject
  | resolve (data : JVal)

/-- Observable outcome of one transform invocation: whether the network
request was issued, the messages shown, the resulting document (none when
there is no active editor), and whether an exception escaped the handler. -/
structure TOut where
  fetched : Bool
  msgs : List Msg
  doc : Option Doc
  threw : Bool
deriving DecidableEq

/-- The transformToCSS command.  The first argument is the registerMode
flag, in scope but never read.  A missing or empty api key aborts with the
key error before any network request.  After the shape test passes, a
truthy non-string content still throws at content.trim (TypeError), leaving
the document unchanged; a string content replaces the line's range with its
trimmed text. -/
def transformToCSS (_mode : Bool) (editor : Option Doc) (apiKey : Option Str)
    (net : FetchOutcome) : TOut :=
  match editor with
  | none => ⟨false, [], none, false⟩
  | some doc =>
    if !(keyTruthy apiKey) then ⟨false, [Msg.errKey], some doc, false⟩
    else
      match net with
      | .reject => ⟨true, [], some doc, true⟩
      | .resolve data =>
        if shapeFail data then ⟨true, [Msg.errApi], some doc, false⟩
        else
          match contentChain data with
          | some (.jstr s) => ⟨true, [], some (replaceCur doc (jsTrim s)), false⟩
          | _ => ⟨true, [], some doc, true⟩

/-! Helper lemmas about the merge loops. -/

theorem getVar_setVar (vars : List (Str × Str)) (k' v' k : Str) :
    getVar (setVar vars k' v') k = if k' = k then some v' else getVar vars k := by
  induction vars with
  | nil => simp [setVar, getVar]
  | cons p rest ih =>
    obtain ⟨k0, v0⟩ := p
    by_cases h1 : k0 = k'
    · subst h1
      by_cases h2 : k0 = k <;> simp [setVar, getVar, h2]
    · by_cases h2 : k0 = k
      · subst h2
        have h3 : ¬ (k' = k0) := fun h => h1 h.symm
        simp [setVar, getVar, h1, h3]
      · simp [setVar, getVar, h1, h2, ih]

theorem lastPair_mem {k v : Str} {ps : List (Str × Str)}
    (h : lastPair k ps = some v) : (k, v) ∈ ps := by
  induction ps with
  | nil => simp [lastPair] at h
  | cons p rest ih =>
    obtain ⟨k0, v0⟩ := p
    rw [lastPair] at h
    cases hr : lastPair k rest with
    | some w =>
      rw [hr] at h
      cases h
      exact List.mem_cons_of_mem _ (ih hr)
    | none =>
      rw [hr] at h
      by_cases h0 : k0 = k
      · rw [if_pos h0] at h
        cases h
        subst h0
        exact List.mem_cons_self _ _
      · rw [if_neg h0] at h
        cases h

theorem lastPair_isSome {k v : Str} {ps : List (Str × Str)}
    (h : (k, v) ∈ ps) : (lastPair k ps).isSome = true := by
  induction ps with
  | nil => simp at h
  | cons p rest ih =>
    obtain ⟨k0, v0⟩ := p
    rw [lastPair]
    rcases List.mem_cons.mp h with he | ht
    · cases hr : lastPair k rest with
      | some w => simp
      | none =>
        cases he
        simp
    · have := ih ht
      cases hr : lastPair k rest with
      | some w => simp
      | none => rw [hr] at this; simp at this

theorem foldVar_spec (ms : List Str) (d : Dict) (ns : List Msg) :
    ms.foldl procVar (d, ns) =
      (⟨mergeV d.vars ms, d.classes⟩,
       ns ++ (ms.filterMap pairOf).map (fun p => Msg.varReg p.1)) := by
  induction ms generalizing d ns with
  | nil => simp [mergeV]
  | cons m ms ih =>
    rw [List.foldl_cons]
    cases hp : pairOf m with
    | none =>
      rw [show procVar (d, ns) m = (d, ns) by simp [procVar, hp]]
      rw [ih]
      simp [mergeV, hp, List.filterMap_cons]
    | some kv =>
      obtain ⟨k, v⟩ := kv
      rw [show procVar (d, ns) m =
          (⟨setVar d.vars k v, d.classes⟩, ns ++ [Msg.varReg k]) by
        simp [procVar, hp]]
      rw [ih]
      simp [mergeV, hp, List.filterMap_cons]

theorem getV_mergeV (ms : List Str) (vars : List (Str × Str)) (k : Str) :
    getVar (mergeV vars ms) k =
      match lastPair k (ms.filterMap pairOf) with
      | some v => some v
      | none => getVar vars k := by
  induction ms generalizing vars with
  | nil => simp [mergeV, lastPair]
  | cons m ms ih =>
    cases hp : pairOf m with
    | none =>
      rw [show mergeV vars (m :: ms) = mergeV vars ms by simp [mergeV, hp]]
      rw [ih]
      simp [hp, List.filterMap_cons]
    | some kv =>
      obtain ⟨k', v'⟩ := kv
      rw [show mergeV vars (m :: ms) = mergeV (setVar vars k' v') ms by
        simp [mergeV, hp]]
      rw [ih]
      rw [show List.filterMap pairOf (m :: ms) = (k', v') :: List.filterMap pairOf ms by
        simp [List.filterMap_cons, hp]]
      cases hl : lastPair k (ms.filterMap pairOf) with
      | some w => simp [lastPair, hl]
      | none =>
        rw [getVar_setVar]
        by_cases hk : k' = k <;> simp [lastPair, hl, hk]

theorem foldClass_spec (ts : List Str) (d : Dict) (ns : List Msg) :
    ts.foldl procClass (d, ns) =
      (⟨d.vars, d.classes ++ firstOccNew d.classes ts⟩,
       ns ++ (firstOccNew d.classes ts).map Msg.clsReg) := by
  induction ts generalizing d ns with
  | nil => simp [firstOccNew]
  | cons t ts ih =>
    rw [List.foldl_cons]
    by_cases h : t ∈ d.classes
    · rw [show procClass (d, ns) t = (d, ns) by simp [procClass, h]]
      rw [ih]
      simp [firstOccNew, h]
    · rw [show procClass (d, ns) t =
          (⟨d.vars, d.classes ++ [t]⟩, ns ++ [Msg.clsReg t]) by
        simp [procClass, h]]
      rw [ih]
      simp [firstOccNew, h, List.append_assoc]

theorem registerMerge_eq (d : Dict) (line : Str) :
    registerMerge d line =
      (⟨mergeV d.vars (matchVars line),
        d.classes ++ firstOccNew d.classes (matchClasses line)⟩,
       (validPairs line).map (fun p => Msg.varReg p.1) ++
         (firstOccNew d.classes (matchClasses line)).map Msg.clsReg) := by
  rw [registerMerge, foldVar_spec, foldClass_spec]
  simp [validPairs]

theorem firstOccNew_nodup (ts : List Str) :
    ∀ cls : List Str, cls.Nodup → (cls ++ firstOccNew cls ts).Nodup := by
  induction ts with
  | nil =>
    intro cls h
    simpa [firstOccNew] using h
  | cons t ts ih =>
    intro cls h
    by_cases ht : t ∈ cls
    · simpa [firstOccNew, ht] using ih cls h
    · have h2 : (cls ++ [t]).Nodup := by
        rw [List.nodup_append]
        refine ⟨h, List.nodup_singleton t, ?_⟩
        intro a ha hat
        rw [List.mem_singleton] at hat
        subst hat
        exact ht ha
      have h3 := ih (cls ++ [t]) h2
      simpa [firstOccNew, ht, List.append_assoc] using h3

theorem mem_firstOccNew (ts : List Str) :
    ∀ (cls : List Str) (t : Str), t ∈ ts → t ∈ cls ++ firstOccNew cls ts := by
  induction ts with
  | nil => intro cls t h; simp at h
  | cons t0 ts ih =>
    intro cls t h
    rcases List.mem_cons.mp h with he | ht
    · subst he
      by_cases h0 : t ∈ cls <;> simp [firstOccNew, h0]
    · by_cases h0 : t0 ∈ cls
      · simpa [firstOccNew, h0] using ih cls t ht
      · have h3 := ih (cls ++ [t0]) t ht
        simp [firstOccNew, h0]
        simpa [List.append_assoc] using h3

theorem firstOccNew_subset (ts : List Str) :
    ∀ (cls : List Str) (c : Str), c ∈ firstOccNew cls ts → c ∈ ts := by
  induction ts with
  | nil => intro cls c h; simp [firstOccNew] at h
  | cons t0 ts ih =>
    intro cls c h
    by_cases h0 : t0 ∈ cls
    · rw [firstOccNew, if_pos h0] at h
      exact List.mem_cons_of_mem _ (ih _ _ h)
    · rw [firstOccNew, if_neg h0] at h
      rcases List.mem_cons.mp h with he | ht
      · subst he
        exact List.mem_cons_self _ _
      · exact List.mem_cons_of_mem _ (ih _ _ ht)

/-! Claim theorems. -/

/-- Claim C1, counterexample.  The claim says the stored value is all
characters after the colon up to but excluding any semicolon, trimmed: for
the line with text dash dash a colon space b colon c that would be b colon c.
The handler instead splits the whole match on every colon and keeps only the
second trimmed segment, storing just b. -/
theorem C1_cex :
    getVar (registerMerge Dict.empty ['-', '-', 'a', ':', ' ', 'b', ':', 'c']).1.vars
        ['-', '-', 'a'] = some ['b'] ∧
      some (['b'] : Str) ≠ some (['b', ':', 'c'] : Str) := by
  decide

/-- Claim C1 (amended): after one recorder invocation, each non-overlapping
left-to-right match of the variable regex is split on colons and its first
two segments trimmed; whenever both are nonempty the first segment is a key
of variables and the stored value is the trimmed second segment of the last
such match with that key, replacing any prior value. -/
theorem C1_amended (d : Dict) (line : Str) (k v : Str)
    (h : (k, v) ∈ validPairs line) :
    getVar (registerMerge d line).1.vars k = lastPair k (validPairs line) ∧
      (lastPair k (validPairs line)).isSome = true := by
  have hs : (lastPair k (validPairs line)).isSome = true := lastPair_isSome h
  refine ⟨?_, hs⟩
  rw [registerMerge_eq]
  dsimp only
  rw [getV_mergeV]
  simp only [validPairs] at hs ⊢
  cases hl : lastPair k (List.filterMap pairOf (matchVars line)) with
  | some w => simp [hl]
  | none => rw [hl] at hs; simp at hs

/-- Witness for C1_amended: registering the line dash dash a colon space one
into the empty record stores the pair, and the lookup equals the last valid
pair of the line. -/
theorem C1_amended_witness :
    getVar (registerMerge Dict.empty ['-', '-', 'a', ':', ' ', '1']).1.vars
        ['-', '-', 'a'] =
      lastPair ['-', '-', 'a'] (validPairs ['-', '-', 'a', ':', ' ', '1']) ∧
      (lastPair ['-', '-', 'a'] (validPairs ['-', '-', 'a', ':', ' ', '1'])).isSome =
        true :=
  C1_amended Dict.empty ['-', '-', 'a', ':', ' ', '1'] ['-', '-', 'a'] ['1']
    (by decide)

/-- Claim C2, counterexample.  With dash dash a already a key of variables,
registering a line that assigns it a new value still shows one variable
notification, though no key was added; the claim says overwrites notify
nothing. -/
theorem C2_cex :
    (registerMerge ⟨[(['-', '-', 'a'], ['1'])], []⟩
        ['-', '-', 'a', ':', ' ', '2']).2 = [Msg.varReg ['-', '-', 'a']] ∧
      getVar (⟨[(['-', '-', 'a'], ['1'])], []⟩ : Dict).vars ['-', '-', 'a'] =
        some ['1'] := by
  decide

/-- Claim C2 (amended): a recorder invocation shows one variable notification
per variable match whose trimmed key and value are both nonempty — including
overwrites of existing keys and repeats within the line — and one class
notification per newly appended class, none for classes already present. -/
theorem C2_amended (d : Dict) (line : Str) :
    (registerMerge d line).2 =
      (validPairs line).map (fun p => Msg.varReg p.1) ++
        (firstOccNew d.classes (matchClasses line)).map Msg.clsReg := by
  rw [registerMerge_eq]

/-- Claim C3, counterexample.  The dictionary file with content the JSON text
null exists and cannot be read as the two-field record, yet JSON.parse
succeeds, the catch never runs, the handler keeps null as its data, and
registering a line with a variable declaration throws a TypeError instead of
completing successfully. -/
theorem C3_cex :
    runRegister ReadResult.parsedNull ['-', '-', 'a', ':', ' ', '1'] =
      Except.error () := by
  rfl

/-- Claim C3 (amended): for every existing file content on which reading or
JSON.parse throws, a recorder invocation never fails: the failure is caught
and logged, the empty record is used in its place (the outcome equals that
of an absent file), and the written record contains exactly the entities
extracted from the current line — every variable key comes from a valid
pair of the line and every class from a class match of the line. -/
theorem C3_amended (line : Str) :
    ∃ d msgs,
      runRegister ReadResult.parseError line = Except.ok (FileVal.record d, msgs) ∧
      runRegister ReadResult.parseError line = runRegister ReadResult.noFile line ∧
      (∀ k, (getVar d.vars k).isSome = true → ∃ v, (k, v) ∈ validPairs line) ∧
      (∀ c, c ∈ d.classes → c ∈ matchClasses line) := by
  refine ⟨(registerMerge Dict.empty line).1, (registerMerge Dict.empty line).2,
    rfl, rfl, ?_, ?_⟩
  · intro k hk
    rw [registerMerge_eq] at hk
    dsimp only at hk
    rw [getV_mergeV] at hk
    cases hl : lastPair k (List.filterMap pairOf (matchVars line)) with
    | some v => exact ⟨v, lastPair_mem hl⟩
    | none => rw [hl] at hk; simp [Dict.empty, getVar] at hk
  · intro c hc
    rw [registerMerge_eq] at hc
    dsimp only at hc
    simp only [Dict.empty, List.nil_append] at hc
    exact firstOccNew_subset _ _ _ hc

/-- Witness for C3_amended at the line dash dash a colon space one. -/
theorem C3_amended_witness :
    ∃ d msgs,
      runRegister ReadResult.parseError ['-', '-', 'a', ':', ' ', '1'] =
        Except.ok (FileVal.record d, msgs) ∧
      runRegister ReadResult.parseError ['-', '-', 'a', ':', ' ', '1'] =
        runRegister ReadResult.noFile ['-', '-', 'a', ':', ' ', '1'] ∧
      (∀ k, (getVar d.vars k).isSome = true →
        ∃ v, (k, v) ∈ validPairs ['-', '-', 'a', ':', ' ', '1']) ∧
      (∀ c, c ∈ d.classes → c ∈ matchClasses ['-', '-', 'a', ':', ' ', '1']) :=
  C3_amended ['-', '-', 'a', ':', ' ', '1']

/-- Claim C4, counterexample.  When the network call fails, the awaited
fetch rejects inside a handler with no try block: the exception propagates,
no generic service error is shown by the handler (the claim requires a
user-visible error), though the document is indeed unchanged. -/
theorem C4_cex :
    (transformToCSS false (some ⟨[], ['x'], []⟩) (some ['k'])
        FetchOutcome.reject).msgs = [] ∧
      (transformToCSS false (some ⟨[], ['x'], []⟩) (some ['k'])
        FetchOutcome.reject).threw = true := by
  decide

/-- Claim C4 (amended): with a truthy credential, a transform invocation
performs zero document mutations on every failure path — when the response
resolves but fails the shape test a user-visible generic service error is
shown; when the network call fails, or the first-candidate content is truthy
but not a string, the invocation terminates by a propagated exception with
no message.  In all such cases the document is left completely unchanged. -/
theorem C4_amended (mode : Bool) (doc : Doc) (key : Option Str)
    (net : FetchOutcome) (hk : keyTruthy key = true) :
    (net = FetchOutcome.reject →
      transformToCSS mode (some doc) key net = ⟨true, [], some doc, true⟩) ∧
    (∀ data, net = FetchOutcome.resolve data → shapeFail data = true →
      transformToCSS mode (some doc) key net =
        ⟨true, [Msg.errApi], some doc, false⟩) ∧
    (∀ data, net = FetchOutcome.resolve data → shapeFail data = false →
      (∀ s, contentChain data ≠ some (JVal.jstr s)) →
      transformToCSS mode (some doc) key net = ⟨true, [], some doc, true⟩) := by
  refine ⟨?_, ?_, ?_⟩
  · rintro rfl
    simp [transformToCSS, hk]
  · rintro data rfl hs
    simp [transformToCSS, hk, hs]
  · rintro data rfl hs hns
    cases hc : contentChain data with
    | none => simp [transformToCSS, hk, hs, hc]
    | some v =>
      cases v with
      | jstr s => exact absurd hc (hns s)
      | jnull => simp [transformToCSS, hk, hs, hc]
      | jbool b => simp [transformToCSS, hk, hs, hc]
      | jnum n => simp [transformToCSS, hk, hs, hc]
      | jarr elems => simp [transformToCSS, hk, hs, hc]
      | jobj fields => simp [transformToCSS, hk, hs, hc]

/-- Witness for C4_amended at a concrete document, key and a rejected
network call. -/
theorem C4_amended_witness :
    (FetchOutcome.reject = FetchOutcome.reject →
      transformToCSS false (some ⟨[], ['x'], []⟩) (some ['k'])
          FetchOutcome.reject = ⟨true, [], some ⟨[], ['x'], []⟩, true⟩) ∧
    (∀ data, FetchOutcome.reject = FetchOutcome.resolve data →
      shapeFail data = true →
      transformToCSS false (some ⟨[], ['x'], []⟩) (some ['k'])
          FetchOutcome.reject = ⟨true, [Msg.errApi], some ⟨[], ['x'], []⟩, false⟩) ∧
    (∀ data, FetchOutcome.reject = FetchOutcome.resolve data →
      shapeFail data = false →
      (∀ s, contentChain data ≠ some (JVal.jstr s)) →
      transformToCSS false (some ⟨[], ['x'], []⟩) (some ['k'])
          FetchOutcome.reject = ⟨true, [], some ⟨[], ['x'], []⟩, true⟩) :=
  C4_amended false ⟨[], ['x'], []⟩ (some ['k']) FetchOutcome.reject (by decide)

/-- Claim C5 (confirmed): for every line and every prior dictionary whose
classes list is duplicate-free, after one recorder invocation the classes
list is the old list with the newly seen tokens appended in first-occurrence
order, and each class token of the line appears exactly once, regardless of
repeats within the line. -/
theorem C5_thm (d : Dict) (line : Str) (hnd : d.classes.Nodup) :
    (registerMerge d line).1.classes =
        d.classes ++ firstOccNew d.classes (matchClasses line) ∧
      ∀ t ∈ matchClasses line,
        @List.count Str instBEqOfDecidableEq t (registerMerge d line).1.classes =
          1 := by
  have hcl : (registerMerge d line).1.classes =
      d.classes ++ firstOccNew d.classes (matchClasses line) := by
    rw [registerMerge_eq]
  refine ⟨hcl, ?_⟩
  intro t ht
  rw [hcl]
  exact List.count_eq_one_of_mem (firstOccNew_nodup _ _ hnd)
    (mem_firstOccNew _ _ _ ht)

/-- Witness for C5_thm: a line repeating the token dot b twice yields a
single entry. -/
theorem C5_witness :
    @List.count Str instBEqOfDecidableEq ['.', 'b']
        (registerMerge Dict.empty ['.', 'b', ' ', '.', 'b']).1.classes = 1 :=
  (C5_thm Dict.empty ['.', 'b', ' ', '.', 'b'] (by decide)).2 ['.', 'b'] (by decide)

/-- Claim C6 (confirmed): with no configured credential, a transform
invocation performs zero network calls, mutates no document text, and shows
the missing-key error — regardless of the flag and of what the network
would have answered. -/
theorem C6_thm (mode : Bool) (doc : Doc) (net : FetchOutcome) :
    transformToCSS mode (some doc) none net =
      ⟨false, [Msg.errKey], some doc, false⟩ := by
  rfl

/-- Claim C7 (confirmed): on a successful service response whose
first-candidate content is a (truthy) string, the transform performs exactly
one document mutation — the invoking line's full text range is replaced with
the content trimmed of surrounding whitespace, and the text before and after
the line is unchanged. -/
theorem C7_thm (mode : Bool) (doc : Doc) (key : Option Str) (data : JVal)
    (s : Str) (hk : keyTruthy key = true) (hs : shapeFail data = false)
    (hc : contentChain data = some (JVal.jstr s)) :
    transformToCSS mode (some doc) key (FetchOutcome.resolve data) =
      ⟨true, [], some ⟨doc.pre, jsTrim s, doc.post⟩, false⟩ := by
  simp [transformToCSS, hk, hs, hc, replaceCur]

/-- Witness for C7_thm: a well-shaped response whose content is the string
space a space replaces the line with the single character a. -/
theorem C7_witness :
    transformToCSS false (some ⟨['p'], ['x'], ['q']⟩) (some ['k'])
        (FetchOutcome.resolve (JVal.jobj [(choicesKey,
          JVal.jarr [JVal.jobj [(messageKey,
            JVal.jobj [(contentKey, JVal.jstr [' ', 'a', ' '])])]])])) =
      ⟨true, [], some ⟨['p'], jsTrim [' ', 'a', ' '], ['q']⟩, false⟩ :=
  C7_thm false ⟨['p'], ['x'], ['q']⟩ (some ['k'])
    (JVal.jobj [(choicesKey,
      JVal.jarr [JVal.jobj [(messageKey,
        JVal.jobj [(contentKey, JVal.jstr [' ', 'a', ' '])])]])])
    [' ', 'a', ' '] rfl rfl rfl

/-- Claim C8, counterexample.  The spec's example line (katakana ku ra su,
two circles, a brace block with color colon red) contains no period and the
circle character is not a word character, so the class regex finds nothing:
one recorder invocation adds zero entries to classes, not one. -/
theorem C8_cex :
    (registerMerge Dict.empty
        ['ク', 'ラ', 'ス', '◯', '◯', ' ', Char.ofNat 0x7b, ' ',
         'c', 'o', 'l', 'o', 'r', ':', ' ', 'r', 'e', 'd', ' ',
         Char.ofNat 0x7d]).1.classes.length = 0 ∧
      (0 : Nat) ≠ 1 := by
  decide

/-- Claim C8 (amended): on the spec's example line one recorder invocation
leaves the dictionary unchanged — the class regex requires a period followed
by ASCII word characters or hyphens, the line has no period, and a
dot-circle token such as period circle circle also has no match because the
circle is not a word character. -/
theorem C8_amended :
    (registerMerge Dict.empty
        ['ク', 'ラ', 'ス', '◯', '◯', ' ', Char.ofNat 0x7b, ' ',
         'c', 'o', 'l', 'o', 'r', ':', ' ', 'r', 'e', 'd', ' ',
         Char.ofNat 0x7d]).1 = Dict.empty ∧
      matchClasses ['.', '◯', '◯'] = [] := by
  decide

/-- Claim C9 (confirmed): the registration-mode flag is never read by the
record or transform paths — for any two flag values both commands produce
identical outcomes on the same inputs — and toggling only flips the flag and
shows one notification with the new state. -/
theorem C9_thm (m m' : Bool) :
    (∀ (editorLine : Option Str) (r : ReadResult),
      registerLineCmd m editorLine r = registerLineCmd m' editorLine r) ∧
    (∀ (editor : Option Doc) (key : Option Str) (net : FetchOutcome),
      transformToCSS m editor key net = transformToCSS m' editor key net) ∧
    (∀ b : Bool, toggleRegisterMode b = (!b, [Msg.toggled (!b)])) :=
  ⟨fun _ _ => rfl, fun _ _ _ => rfl, fun _ => rfl⟩

/-- Claim C10 (confirmed): when the dictionary file reads successfully as
the two-field record, the merge only grows it — the written record is the
merge of the read record, every prior variable key is still a key
afterwards, the prior classes list is a prefix of the new one (entries only
appended), and a line matching neither regex writes back the record read. -/
theorem C10_thm (d : Dict) (line : Str) :
    runRegister (ReadResult.parsed d) line =
        Except.ok (FileVal.record (registerMerge d line).1,
          (registerMerge d line).2) ∧
      (∀ k, (getVar d.vars k).isSome = true →
        (getVar (registerMerge d line).1.vars k).isSome = true) ∧
      (∃ tail, (registerMerge d line).1.classes = d.classes ++ tail) ∧
      (matchVars line = [] → matchClasses line = [] →
        (registerMerge d line).1 = d) := by
  refine ⟨rfl, ?_, ?_, ?_⟩
  · intro k hk
    rw [registerMerge_eq]
    dsimp only
    rw [getV_mergeV]
    cases hl : lastPair k (List.filterMap pairOf (matchVars line)) with
    | some v => simp
    | none => simpa using hk
  · refine ⟨firstOccNew d.classes (matchClasses line), ?_⟩
    rw [registerMerge_eq]
  · intro hv hc
    rw [registerMerge_eq, hv, hc]
    simp [mergeV, firstOccNew]

/-- Witness for C10_thm: a record with one variable and one class keeps its
key under a line adding a new class, and a line matching neither regex
leaves the record unchanged. -/
theorem C10_witness :
    (getVar (registerMerge ⟨[(['-', '-', 'z'], ['0'])], [['.', 'z']]⟩
        ['.', 'b']).1.vars ['-', '-', 'z']).isSome = true ∧
      (registerMerge ⟨[(['-', '-', 'z'], ['0'])], [['.', 'z']]⟩
        ['h', 'i']).1 = ⟨[(['-', '-', 'z'], ['0'])], [['.', 'z']]⟩ :=
  ⟨(C10_thm ⟨[(['-', '-', 'z'], ['0'])], [['.', 'z']]⟩ ['.', 'b']).2.1
      ['-', '-', 'z'] (by decide),
    (C10_thm ⟨[(['-', '-', 'z'], ['0'])], [['.', 'z']]⟩ ['h', 'i']).2.2.2
      (by decide) (by decide)⟩

end CssTalk
